import Mathlib

/-!
Verification of the generative-art repository's numeric core against its
specification.  Real-valued computations (noise, flow vectors, densities)
are modelled over `ℝ`; the coherent-noise primitives from the external
`noise` package (`pnoise2`, `pnoise3`) are abstracted as function
parameters.  String processing (resolution parsing) is modelled over
`List Char`, with Python's `ValueError` rendered as `none`.
-/

namespace GenerativeArt

/-! ## Fractional Brownian motion accumulation

The fbm loop appears in `FluffyClouds.fbm_noise`
(src/generative_art/fluffy_clouds.py, lines 121-141) and, per the spec,
in `noise_utils.fbm_noise1/2/3`.  The loop state carries the Python
locals `total`, `amplitude`, `frequency`, `max_value`. -/

/-- State of the fbm accumulation loop: the Python locals
`total`, `amplitude`, `frequency`, `max_value`. -/
structure FbmState where
  total : ℝ
  amplitude : ℝ
  frequency : ℝ
  max_value : ℝ

/-- One iteration of the fbm loop: sample the noise at the current
frequency, accumulate weighted noise and amplitude, then update
amplitude by `persistence` and frequency by `lacunarity`. -/
noncomputable def fbmStep (sample : ℝ → ℝ) (persistence lacunarity : ℝ)
    (st : FbmState) : FbmState where
  total := st.total + sample st.frequency * st.amplitude
  amplitude := st.amplitude * persistence
  frequency := st.frequency * lacunarity
  max_value := st.max_value + st.amplitude

/-- The fbm loop run for `n` octaves from the initial state
`total = 0`, `amplitude = 1`, `frequency = 1`, `max_value = 0`. -/
noncomputable def fbmLoop (sample : ℝ → ℝ) (persistence lacunarity : ℝ) :
    Nat → FbmState
  | 0 => ⟨0, 1, 1, 0⟩
  | n + 1 => fbmStep sample persistence lacunarity
      (fbmLoop sample persistence lacunarity n)

/-- Loop invariant of the fbm accumulation: the accumulated total is
bounded by the accumulated amplitude sum, the running amplitude stays
positive, and the amplitude sum is nonnegative. -/
theorem fbmLoop_invariant (sample : ℝ → ℝ) (p l : ℝ) (hp : 0 < p)
    (hs : ∀ f, |sample f| ≤ 1) (n : Nat) :
    |(fbmLoop sample p l n).total| ≤ (fbmLoop sample p l n).max_value ∧
      0 < (fbmLoop sample p l n).amplitude ∧
      0 ≤ (fbmLoop sample p l n).max_value := by
  induction n with
  | zero => simp [fbmLoop]
  | succ n ih =>
    obtain ⟨h1, h2, h3⟩ := ih
    refine ⟨?_, ?_, ?_⟩
    · calc |(fbmLoop sample p l n).total +
            sample (fbmLoop sample p l n).frequency *
              (fbmLoop sample p l n).amplitude|
          ≤ |(fbmLoop sample p l n).total| +
            |sample (fbmLoop sample p l n).frequency *
              (fbmLoop sample p l n).amplitude| := abs_add _ _
        _ ≤ (fbmLoop sample p l n).max_value +
            1 * (fbmLoop sample p l n).amplitude := by
            refine add_le_add h1 ?_
            rw [abs_mul, abs_of_pos h2]
            exact mul_le_mul_of_nonneg_right (hs _) (le_of_lt h2)
        _ = (fbmLoop sample p l n).max_value +
            (fbmLoop sample p l n).amplitude := by ring
    · exact mul_pos h2 hp
    · exact add_nonneg h3 (le_of_lt h2)

/-- With at least one octave, the accumulated amplitude sum is strictly
positive. -/
theorem fbmLoop_max_value_pos (sample : ℝ → ℝ) (p l : ℝ) (hp : 0 < p)
    (hs : ∀ f, |sample f| ≤ 1) (n : Nat) (hn : 1 ≤ n) :
    0 < (fbmLoop sample p l n).max_value := by
  obtain ⟨m, rfl⟩ := Nat.exists_eq_add_of_le hn
  obtain ⟨_, h2, h3⟩ := fbmLoop_invariant sample p l hp hs m
  have : fbmLoop sample p l (1 + m) = fbmLoop sample p l (m + 1) := by
    rw [Nat.add_comm]
  rw [this]
  exact add_pos_of_nonneg_of_pos h3 h2

/-- The normalized fbm value `total / max_value` lies in `[-1, 1]`. -/
theorem fbmLoop_div_range (sample : ℝ → ℝ) (p l : ℝ) (hp : 0 < p)
    (hs : ∀ f, |sample f| ≤ 1) (n : Nat) (hn : 1 ≤ n) :
    -1 ≤ (fbmLoop sample p l n).total / (fbmLoop sample p l n).max_value ∧
      (fbmLoop sample p l n).total / (fbmLoop sample p l n).max_value ≤ 1 := by
  have hm := fbmLoop_max_value_pos sample p l hp hs n hn
  have h1 := (fbmLoop_invariant sample p l hp hs n).1
  constructor
  · rw [neg_le, ← neg_div]
    rw [div_le_one hm]
    calc -(fbmLoop sample p l n).total ≤ |(fbmLoop sample p l n).total| :=
          neg_le_abs _
      _ ≤ _ := h1
  · rw [div_le_one hm]
    calc (fbmLoop sample p l n).total ≤ |(fbmLoop sample p l n).total| :=
          le_abs_self _
      _ ≤ _ := h1

/-! ## The FluffyClouds sketch (src/generative_art/fluffy_clouds.py)

`pnoise2` from the external `noise` package is abstracted:
`pnoise2` is the default single-octave call used inside the fbm loop,
and `pnoise2_oct2` is the `octaves=2` call used only for domain
warping. -/

/-- Parameters of the `FluffyClouds` sketch, with the defaults set in
`FluffyClouds.__init__` (fluffy_clouds.py, lines 37-45). -/
structure FluffyClouds where
  octaves : Nat := 6
  persistence : ℝ := 0.55
  lacunarity : ℝ := 2.0
  noise_scale : ℝ := 0.002
  warp_strength : ℝ := 40.0
  warp_scale : ℝ := 0.001

/-- The method `FluffyClouds.fbm_noise` (fluffy_clouds.py, lines 93-144): domain
warping of the sampling position followed by the multi-octave fbm
accumulation, normalized from `[-1, 1]` to `[0, 1]` at the end. -/
noncomputable def FluffyClouds.fbm_noise (c : FluffyClouds)
    (pnoise2 pnoise2_oct2 : ℝ → ℝ → ℝ) (x y : ℝ) : ℝ :=
  let warp_x := pnoise2_oct2 (x * c.warp_scale) (y * c.warp_scale)
  let warp_y := pnoise2_oct2 (x * c.warp_scale + 100) (y * c.warp_scale + 100)
  let warped_x := x + warp_x * c.warp_strength
  let warped_y := y + warp_y * c.warp_strength
  let final := fbmLoop
    (fun frequency => pnoise2 (warped_x * c.noise_scale * frequency)
      (warped_y * c.noise_scale * frequency))
    c.persistence c.lacunarity c.octaves
  (final.total / final.max_value + 1.0) / 2.0

/-! ## The noise_utils module

`generative_art/noise_utils.py` is exercised by
`tests/unit/test_noise_utils.py` but its source is not in the
repository snapshot; the functions below are modelled from the spec
(§4.1 NoiseEngine). -/

/-- Modelled from the spec: `noise_utils.fbm_noise2` (source file
`generative_art/noise_utils.py` is missing; only its tests are
present).  Multi-octave accumulation over a 2D coherent-noise
primitive `noise2`: frequency grows by `lacunarity` per octave,
amplitude shrinks by `persistence` per octave, and the weighted sum is
divided by the sum of octave amplitudes. -/
noncomputable def fbm_noise2 (noise2 : ℝ → ℝ → ℝ) (x y : ℝ)
    (octaves : Nat) (persistence lacunarity : ℝ) : ℝ :=
  let final := fbmLoop (fun frequency => noise2 (x * frequency) (y * frequency))
    persistence lacunarity octaves
  final.total / final.max_value

/-- Modelled from the spec: `noise_utils.fbm_noise1` (source file
`generative_art/noise_utils.py` is missing).  The 1D fbm field: the
same accumulation sampling the 2D primitive with the second coordinate
held at `0`. -/
noncomputable def fbm_noise1 (noise2 : ℝ → ℝ → ℝ) (x : ℝ)
    (octaves : Nat) (persistence lacunarity : ℝ) : ℝ :=
  let final := fbmLoop (fun frequency => noise2 (x * frequency) 0)
    persistence lacunarity octaves
  final.total / final.max_value

/-- Modelled from the spec: `noise_utils.fbm_noise3` (source file
`generative_art/noise_utils.py` is missing).  Multi-octave
accumulation over a 3D coherent-noise primitive `noise3`; the third
argument is a time or depth dimension. -/
noncomputable def fbm_noise3 (noise3 : ℝ → ℝ → ℝ → ℝ) (x y z : ℝ)
    (octaves : Nat) (persistence lacunarity : ℝ) : ℝ :=
  let final := fbmLoop
    (fun frequency => noise3 (x * frequency) (y * frequency) (z * frequency))
    persistence lacunarity octaves
  final.total / final.max_value

/-! ## The flow-line sketches

`incandescent_perlin_flow.py` and `animated_incandescent_perlin_flow.py`
both advance each particle by a velocity obtained from a noise value:
the noise is stretched to an angle over two full turns, and the unit
vector at that angle is scaled by `flow_strength`. -/

/-- Parameters of the `IncandesceeentPerlinFlow` sketch
(incandescent_perlin_flow.py, lines 34-36). -/
structure IncandesceeentPerlinFlow where
  noise_scale : ℝ := 0.003
  flow_strength : ℝ := 2.0

/-- The velocity computed at position `(x, y)` by one step of
`IncandesceeentPerlinFlow.draw_flow_line`
(incandescent_perlin_flow.py, lines 124-139). -/
noncomputable def IncandesceeentPerlinFlow.step_velocity
    (s : IncandesceeentPerlinFlow) (pnoise2 : ℝ → ℝ → ℝ) (x y : ℝ) : ℝ × ℝ :=
  let noise_val := pnoise2 (x * s.noise_scale) (y * s.noise_scale)
  let angle := noise_val * (2 * Real.pi) * 2
  (Real.cos angle * s.flow_strength, Real.sin angle * s.flow_strength)

/-- Parameters of the `AnimatedIncandesceeentPerlinFlow` sketch
(animated_incandescent_perlin_flow.py, lines 34-37). -/
structure AnimatedIncandesceeentPerlinFlow where
  noise_scale : ℝ := 0.003
  flow_strength : ℝ := 2.0
  time_offset : ℝ := 0.0

/-- The velocity computed at position `(x, y)` by one step of
`AnimatedIncandesceeentPerlinFlow.draw_flow_line`
(animated_incandescent_perlin_flow.py, lines 131-150), sampling the 3D
noise with the time dimension `time_offset * 0.01`. -/
noncomputable def AnimatedIncandesceeentPerlinFlow.step_velocity
    (s : AnimatedIncandesceeentPerlinFlow) (pnoise3 : ℝ → ℝ → ℝ → ℝ)
    (x y : ℝ) : ℝ × ℝ :=
  let noise_val := pnoise3 (x * s.noise_scale) (y * s.noise_scale)
    (s.time_offset * 0.01)
  let angle := noise_val * (2 * Real.pi) * 2
  (Real.cos angle * s.flow_strength, Real.sin angle * s.flow_strength)

/-! ## The flow_field module

`generative_art/flow_field.py` is exercised by
`tests/unit/test_flow_field.py` but its source is not in the
repository snapshot; the data model and operations below are modelled
from the spec (§3, §4.2-§4.4). -/

/-- Euclidean distance from `(x, y)` to `(cx, cy)`. -/
noncomputable def dist2 (x y cx cy : ℝ) : ℝ :=
  Real.sqrt ((x - cx) ^ 2 + (y - cy) ^ 2)

/-- Modelled from the spec: `flow_field.Obstacle` (source file
`generative_art/flow_field.py` is missing; only its tests are
present).  A circular obstacle with default
`influence_radius = radius * 2.5` and default `strength = 1.0`. -/
structure Obstacle where
  x : ℝ
  y : ℝ
  radius : ℝ
  influence_radius : ℝ := radius * 2.5
  strength : ℝ := 1.0

/-- Modelled from the spec: `flow_field.FlowFieldConfig` with the
defaults of §3. -/
structure FlowFieldConfig where
  noise_scale : ℝ := 0.003
  flow_strength : ℝ := 2.0
  octaves : Nat := 3
  persistence : ℝ := 0.5
  time_scale : ℝ := 0.01

/-- Modelled from the spec: `flow_field.FlowField`, owning a
configuration and an ordered obstacle list. -/
structure FlowField where
  config : FlowFieldConfig := {}
  obstacles : List Obstacle := []

/-- Modelled from the spec: `FlowField.get_base_flow` (§4.3): sample
`fbm_noise3` at the scaled position and time, map the noise value to
an angle over two full turns, and return the unit vector at that angle
scaled by `flow_strength`. -/
noncomputable def FlowField.get_base_flow (noise3 : ℝ → ℝ → ℝ → ℝ)
    (ff : FlowField) (x y time : ℝ) : ℝ × ℝ :=
  let n := fbm_noise3 noise3 (x * ff.config.noise_scale)
    (y * ff.config.noise_scale) (time * ff.config.time_scale)
    ff.config.octaves ff.config.persistence 2.0
  let angle := n * (2 * Real.pi) * 2
  (Real.cos angle * ff.config.flow_strength,
   Real.sin angle * ff.config.flow_strength)

/-- Modelled from the spec: the contribution of one obstacle to
`FlowField.get_flow` (§4.3).  Nothing at `d ≥ influence_radius`; a
strong outward push scaled by `strength` inside the obstacle; in
between, the inside magnitude decays continuously and monotonically to
zero at `influence_radius`.  The exact interpolation curve is left
open by the spec (§9); a linear falloff is chosen here. -/
noncomputable def obstacleDeflection (cfg : FlowFieldConfig)
    (ob : Obstacle) (x y : ℝ) : ℝ × ℝ :=
  let dx := x - ob.x
  let dy := y - ob.y
  let d := dist2 x y ob.x ob.y
  if ob.influence_radius ≤ d then (0, 0)
  else
    let dirx := if d = 0 then 1 else dx / d
    let diry := if d = 0 then 0 else dy / d
    let inside_mag := cfg.flow_strength * ob.strength * 2
    if d < ob.radius then (dirx * inside_mag, diry * inside_mag)
    else
      let t := (ob.influence_radius - d) / (ob.influence_radius - ob.radius)
      (dirx * inside_mag * t, diry * inside_mag * t)

/-- Modelled from the spec: `FlowField.get_flow` (§4.3): the base flow
plus the sum of the obstacle deflection terms. -/
noncomputable def FlowField.get_flow (noise3 : ℝ → ℝ → ℝ → ℝ)
    (ff : FlowField) (x y time : ℝ) : ℝ × ℝ :=
  let base := ff.get_base_flow noise3 x y time
  let defl := ff.obstacles.foldl
    (fun acc ob =>
      let v := obstacleDeflection ff.config ob x y
      (acc.1 + v.1, acc.2 + v.2))
    (0, 0)
  (base.1 + defl.1, base.2 + defl.2)

/-- Modelled from the spec: `flow_field.ClusteringConfig` with the
defaults of §3. -/
structure ClusteringConfig where
  base_density : ℝ := 0.001
  obstacle_density_multiplier : ℝ := 3.0
  min_distance : ℝ := 5.0
  cluster_falloff : ℝ := 0.5
  edge_offset : ℝ := 10.0

/-- Modelled from the spec: `flow_field.PointClusterer`, owning
bounds, a configuration, an obstacle list and an optional seed. -/
structure PointClusterer where
  width : ℝ
  height : ℝ
  config : ClusteringConfig := {}
  obstacles : List Obstacle := []
  seed : Option Nat := none

/-- Modelled from the spec: the density boost one obstacle contributes
in `PointClusterer.get_density_at` (§4.4): above `1` inside the
influence radius, peaking near the obstacle edge scaled by
`obstacle_density_multiplier`, decaying to `1` at `influence_radius`.
The exact decay curve is only shaped by `cluster_falloff` in the spec;
a polynomial blend is chosen here. -/
noncomputable def obstacleBoost (cfg : ClusteringConfig) (ob : Obstacle)
    (x y : ℝ) : ℝ :=
  let d := dist2 x y ob.x ob.y
  if d < ob.influence_radius then
    let normalized := (ob.influence_radius - d) /
      (ob.influence_radius - ob.radius)
    let shaped := cfg.cluster_falloff * normalized ^ 2 +
      (1 - cfg.cluster_falloff) * normalized
    1 + (cfg.obstacle_density_multiplier - 1) * shaped * ob.strength
  else 1

/-- Modelled from the spec: `PointClusterer.get_density_at` (§4.4):
`0` inside any obstacle's radius (hard exclusion, taking precedence);
otherwise the maximum boost among influencing obstacles, never below
the baseline `1`. -/
noncomputable def PointClusterer.get_density_at (c : PointClusterer)
    (x y : ℝ) : ℝ :=
  if c.obstacles.any fun ob => decide (dist2 x y ob.x ob.y < ob.radius) then 0
  else c.obstacles.foldl
    (fun acc ob => max acc (obstacleBoost c.config ob x y)) 1

/-- Modelled from the spec: `PointClusterer.is_valid_point` (§4.4):
`false` outside `[0, width] × [0, height]`, inside any obstacle's
radius, or within `min_distance` of an existing point; `true`
otherwise. -/
noncomputable def PointClusterer.is_valid_point (c : PointClusterer)
    (x y : ℝ) (existing_points : List (ℝ × ℝ)) : Bool :=
  if x < 0 ∨ x > c.width ∨ y < 0 ∨ y > c.height then false
  else if c.obstacles.any fun ob =>
      decide (dist2 x y ob.x ob.y < ob.radius) then false
  else if existing_points.any fun p =>
      decide (dist2 x y p.1 p.2 < c.config.min_distance) then false
  else true

/-- Modelled from the spec: the clusterer's owned seeded random source
(§4.4, §9).  Python's `random.Random` is abstracted as a deterministic
linear congruential generator over a 31-bit state. -/
def lcgNext (s : Nat) : Nat := (1103515245 * s + 12345) % 2147483648

/-- Modelled from the spec: a uniform draw in `[lo, hi)` from a 31-bit
generator state. -/
noncomputable def randUniform (s : Nat) (lo hi : ℝ) : ℝ :=
  lo + (hi - lo) * ((s : ℝ) / 2147483648)

/-- Modelled from the spec: the rejection-sampling loop of
`PointClusterer.generate_points` (§4.4).  Each attempt draws a
candidate uniformly within bounds, accepts it when `is_valid_point`
holds against the points accepted so far and a density-weighted
acceptance draw passes (acceptance probability monotone in
`get_density_at`), and stops once `count` points are accepted or the
attempt budget `fuel` is exhausted. -/
noncomputable def PointClusterer.generatePointsAux (c : PointClusterer)
    (count : Nat) : Nat → Nat → List (ℝ × ℝ) → List (ℝ × ℝ)
  | 0, _, accepted => accepted
  | fuel + 1, state, accepted =>
    if accepted.length = count then accepted
    else
      let s1 := lcgNext state
      let x := randUniform s1 0 c.width
      let s2 := lcgNext s1
      let y := randUniform s2 0 c.height
      let s3 := lcgNext s2
      let u := randUniform s3 0 1
      if c.is_valid_point x y accepted = true ∧ u < c.get_density_at x y then
        c.generatePointsAux count fuel s3 ((x, y) :: accepted)
      else
        c.generatePointsAux count fuel s3 accepted

/-- Modelled from the spec: `PointClusterer.generate_points` (§4.4):
rejection sampling with an attempt budget that is a multiple of the
requested count, returning at most `count` points. -/
noncomputable def PointClusterer.generate_points (c : PointClusterer)
    (count : Nat) : List (ℝ × ℝ) :=
  (c.generatePointsAux count (count * 30) (c.seed.getD 0) []).reverse

/-- Modelled from the spec: `PointClusterer.generate_points_grid_based`
(§4.4): candidate positions on a regular grid approximating `count`
cells, filtered by `is_valid_point` against the obstacle set only, up
to `count` points. -/
noncomputable def PointClusterer.generate_points_grid_based
    (c : PointClusterer) (count : Nat) : List (ℝ × ℝ) :=
  let grid_size := Nat.sqrt count + 1
  let cells := (List.range grid_size).flatMap fun i =>
    (List.range grid_size).map fun j =>
      (((i : ℝ) + 0.5) * c.width / (grid_size : ℝ),
       ((j : ℝ) + 0.5) * c.height / (grid_size : ℝ))
  (cells.filter fun p => c.is_valid_point p.1 p.2 []).take count

/-! ## Resolution-string parsing

Python strings are modelled as `List Char` and `ValueError` as `none`.
`pyStrip`, `pySplitChar` and `pyInt` model `str.strip`-style whitespace
handling inside `int()`, `str.split` with a one-character separator,
and `int()` on a decimal literal (optional surrounding ASCII
whitespace, optional sign, digits with single underscores strictly
between digits). -/

/-- ASCII whitespace stripped by Python's `int()`. -/
def isPySpace (c : Char) : Bool :=
  c == ' ' || c == '\t' || c == '\n' || c == '\x0d' || c == '\x0b' || c == '\x0c'

/-- Both-ends whitespace stripping. -/
def pyStrip (s : List Char) : List Char :=
  ((s.dropWhile isPySpace).reverse.dropWhile isPySpace).reverse

/-- The numeric value of a decimal digit character. -/
def charToDigit (c : Char) : Nat := c.toNat - 48

/-- Digit run with single underscores strictly between digits,
accumulating the value; models the tail of Python's `int()` grammar. -/
def parseDigitsCore : List Char → Nat → Option Nat
  | [], acc => some acc
  | c :: cs, acc =>
    if c = '_' then
      match cs with
      | [] => none
      | d :: ds =>
        if d.isDigit then parseDigitsCore ds (acc * 10 + charToDigit d)
        else none
    else if c.isDigit then parseDigitsCore cs (acc * 10 + charToDigit c)
    else none

/-- A nonempty digit run (with single underscores between digits). -/
def parseDigits : List Char → Option Nat
  | [] => none
  | c :: cs => if c.isDigit then parseDigitsCore cs (charToDigit c) else none

/-- Python's `int()` on a string: strip ASCII whitespace, optional
sign, then a digit run; `none` models `ValueError`. -/
def pyInt (s : List Char) : Option Int :=
  match pyStrip s with
  | [] => none
  | c :: cs =>
    if c = '+' then (parseDigits cs).map fun n => (n : Int)
    else if c = '-' then (parseDigits cs).map fun n => -(n : Int)
    else (parseDigits (c :: cs)).map fun n => (n : Int)

/-- Python's `str.split` with a one-character separator. -/
def pySplitChar (sep : Char) : List Char → List (List Char)
  | [] => [[]]
  | c :: cs =>
    let rest := pySplitChar sep cs
    if c = sep then [] :: rest
    else
      match rest with
      | [] => [[c]]
      | r :: rs => (c :: r) :: rs

/-- Python's `str.lower` on ASCII characters. -/
def asciiLower (c : Char) : Char :=
  if 'A' ≤ c ∧ c ≤ 'Z' then Char.ofNat (c.toNat + 32) else c

/-- Decimal rendering of a natural number, as Python's `str()`. -/
def natRepr (n : Nat) : List Char :=
  if n = 0 then ['0']
  else (Nat.digits 10 n).reverse.map fun d => Char.ofNat (48 + d)

/-- Decimal rendering of an integer, as Python's `str()`. -/
def intRepr (n : Int) : List Char :=
  if n < 0 then '-' :: natRepr (-n).toNat else natRepr n.toNat

namespace fluffy_clouds

/-- The `shorthand_map` of `parse_resolution` in fluffy_clouds.py,
lines 206-213. -/
def shorthand_map : List (List Char × (Int × Int)) :=
  [(['4', 'k'], (3840, 2160)),
   (['1', '4', '4', '0', 'p'], (2560, 1440)),
   (['1', '0', '8', '0', 'p'], (1920, 1080)),
   (['7', '2', '0', 'p'], (1280, 720)),
   (['1', '4', '4', '0', 'p', '_', 'p', 'o', 'r', 't', 'r', 'a', 'i', 't'],
    (1440, 2560)),
   (['q', 'h', 'd', '_', 'p', 'o', 'r', 't', 'r', 'a', 'i', 't'],
    (1440, 2560))]

/-- The function `parse_resolution` (fluffy_clouds.py, lines 193-238): shorthand
lookup on the lowercased string, then the `WIDTHxHEIGHT` format with
both components positive; `none` models the final `ValueError`. -/
def parse_resolution (s : List Char) : Option (Int × Int) :=
  let resolution_lower := s.map asciiLower
  match List.lookup resolution_lower shorthand_map with
  | some r => some r
  | none =>
    if s.contains 'x' then
      match pySplitChar 'x' s with
      | [p1, p2] =>
        match pyInt p1, pyInt p2 with
        | some width, some height =>
          if 0 < width ∧ 0 < height then some (width, height) else none
        | _, _ => none
      | _ => none
    else none

end fluffy_clouds

namespace incandescent_perlin_flow

/-- The `shorthand_map` of `parse_resolution` in
incandescent_perlin_flow.py, lines 175-182. -/
def shorthand_map : List (List Char × (Int × Int)) :=
  [(['4', 'k'], (3840, 2160)),
   (['1', '4', '4', '0', 'p'], (2560, 1440)),
   (['1', '0', '8', '0', 'p'], (1920, 1080)),
   (['7', '2', '0', 'p'], (1280, 720)),
   (['1', '4', '4', '0', 'p', '_', 'p', 'o', 'r', 't', 'r', 'a', 'i', 't'],
    (1440, 2560)),
   (['q', 'h', 'd', '_', 'p', 'o', 'r', 't', 'r', 'a', 'i', 't'],
    (1440, 2560))]

/-- The function `parse_resolution` (incandescent_perlin_flow.py, lines 162-207),
textually identical to the fluffy_clouds version. -/
def parse_resolution (s : List Char) : Option (Int × Int) :=
  let resolution_lower := s.map asciiLower
  match List.lookup resolution_lower shorthand_map with
  | some r => some r
  | none =>
    if s.contains 'x' then
      match pySplitChar 'x' s with
      | [p1, p2] =>
        match pyInt p1, pyInt p2 with
        | some width, some height =>
          if 0 < width ∧ 0 < height then some (width, height) else none
        | _, _ => none
      | _ => none
    else none

end incandescent_perlin_flow

namespace animated_incandescent_perlin_flow

/-- The `shorthand_map` of `parse_resolution` in
animated_incandescent_perlin_flow.py, lines 211-218. -/
def shorthand_map : List (List Char × (Int × Int)) :=
  [(['4', 'k'], (3840, 2160)),
   (['1', '4', '4', '0', 'p'], (2560, 1440)),
   (['1', '0', '8', '0', 'p'], (1920, 1080)),
   (['7', '2', '0', 'p'], (1280, 720)),
   (['1', '4', '4', '0', 'p', '_', 'p', 'o', 'r', 't', 'r', 'a', 'i', 't'],
    (1440, 2560)),
   (['q', 'h', 'd', '_', 'p', 'o', 'r', 't', 'r', 'a', 'i', 't'],
    (1440, 2560))]

/-- The function `parse_resolution` (animated_incandescent_perlin_flow.py, lines
198-243), textually identical to the fluffy_clouds version. -/
def parse_resolution (s : List Char) : Option (Int × Int) :=
  let resolution_lower := s.map asciiLower
  match List.lookup resolution_lower shorthand_map with
  | some r => some r
  | none =>
    if s.contains 'x' then
      match pySplitChar 'x' s with
      | [p1, p2] =>
        match pyInt p1, pyInt p2 with
        | some width, some height =>
          if 0 < width ∧ 0 < height then some (width, height) else none
        | _, _ => none
      | _ => none
    else none

/-- The function `get_resolution_shorthand` (animated_incandescent_perlin_flow.py,
lines 173-195): the named shorthand for the five common resolutions,
otherwise the generic `WIDTHxHEIGHT` rendering.  The Python dict
lookup over distinct keys is written as an if-chain. -/
def get_resolution_shorthand (width height : Int) : List Char :=
  if width = 3840 ∧ height = 2160 then ['4', 'k']
  else if width = 2560 ∧ height = 1440 then ['1', '4', '4', '0', 'p']
  else if width = 1920 ∧ height = 1080 then ['1', '0', '8', '0', 'p']
  else if width = 1280 ∧ height = 720 then ['7', '2', '0', 'p']
  else if width = 1440 ∧ height = 2560 then
    ['1', '4', '4', '0', 'p', '_', 'p', 'o', 'r', 't', 'r', 'a', 'i', 't']
  else intRepr width ++ 'x' :: intRepr height

end animated_incandescent_perlin_flow

/-- A clusterer whose single obstacle covers the entire canvas: every
candidate point lies within the obstacle's radius, so rejection
sampling can accept nothing. -/
noncomputable def coveredClusterer : PointClusterer where
  width := 100
  height := 100
  obstacles := [{ x := 0, y := 0, radius := 1000000,
                  influence_radius := 1000000 }]

/-! ## Shared helper lemmas -/

/-- A scaled unit vector at any angle has norm equal to the
(nonnegative) scale. -/
theorem sqrt_cos_sin_scale (a f : ℝ) (hf : 0 ≤ f) :
    Real.sqrt ((Real.cos a * f) ^ 2 + (Real.sin a * f) ^ 2) = f := by
  have h : (Real.cos a * f) ^ 2 + (Real.sin a * f) ^ 2 = f ^ 2 := by
    have := Real.cos_sq_add_sin_sq a
    nlinarith [this]
  rw [h, Real.sqrt_sq hf]

/-! ## C1: fbm range -/

/-- C1: For every finite input, octave count from 1 upward and positive
persistence, the fbm noise functions `fbm_noise1`, `fbm_noise2`,
`fbm_noise3` and the sketch-level `FluffyClouds.fbm_noise` return a
value in `[-1, 1]`, because the accumulated weighted sum is divided by
the sum of octave amplitudes, under the hypothesis that the underlying
single-octave noise primitive returns values in `[-1, 1]`. -/
theorem fbm_noise_range (noise2 : ℝ → ℝ → ℝ) (noise3 : ℝ → ℝ → ℝ → ℝ)
    (pn warp : ℝ → ℝ → ℝ) (c : FluffyClouds) (x y z : ℝ) (octaves : Nat)
    (persistence lacunarity : ℝ) (ho : 1 ≤ octaves) (hp : 0 < persistence)
    (h2 : ∀ a b, |noise2 a b| ≤ 1) (h3 : ∀ a b d, |noise3 a b d| ≤ 1)
    (hpn : ∀ a b, |pn a b| ≤ 1) (hco : 1 ≤ c.octaves)
    (hcp : 0 < c.persistence) :
    (-1 ≤ fbm_noise1 noise2 x octaves persistence lacunarity ∧
      fbm_noise1 noise2 x octaves persistence lacunarity ≤ 1) ∧
    (-1 ≤ fbm_noise2 noise2 x y octaves persistence lacunarity ∧
      fbm_noise2 noise2 x y octaves persistence lacunarity ≤ 1) ∧
    (-1 ≤ fbm_noise3 noise3 x y z octaves persistence lacunarity ∧
      fbm_noise3 noise3 x y z octaves persistence lacunarity ≤ 1) ∧
    (-1 ≤ c.fbm_noise pn warp x y ∧ c.fbm_noise pn warp x y ≤ 1) := by
  refine ⟨?_, ?_, ?_, ?_⟩
  · exact fbmLoop_div_range _ persistence lacunarity hp
      (fun f => h2 _ _) octaves ho
  · exact fbmLoop_div_range _ persistence lacunarity hp
      (fun f => h2 _ _) octaves ho
  · exact fbmLoop_div_range _ persistence lacunarity hp
      (fun f => h3 _ _ _) octaves ho
  · have hr := fbmLoop_div_range
      (fun frequency =>
        pn ((x + warp (x * c.warp_scale) (y * c.warp_scale) * c.warp_strength)
              * c.noise_scale * frequency)
           ((y + warp (x * c.warp_scale + 100) (y * c.warp_scale + 100)
              * c.warp_strength) * c.noise_scale * frequency))
      c.persistence c.lacunarity hcp (fun f => hpn _ _) c.octaves hco
    unfold FluffyClouds.fbm_noise
    constructor <;> [linarith [hr.1]; linarith [hr.2]]

/-- Witness for C1 at a concrete configuration: constant zero noise,
eight octaves, persistence one half, and the default sketch
parameters. -/
theorem fbm_noise_range_witness :
    -1 ≤ fbm_noise1 (fun _ _ => 0) 0.5 8 0.5 2 ∧
      fbm_noise1 (fun _ _ => 0) 0.5 8 0.5 2 ≤ 1 :=
  (fbm_noise_range (fun _ _ => 0) (fun _ _ _ => 0) (fun _ _ => 0)
    (fun _ _ => 0) {} 0.5 0.5 0.5 8 0.5 2 (by norm_num) (by norm_num)
    (fun a b => by norm_num) (fun a b d => by norm_num)
    (fun a b => by norm_num) (by norm_num [FluffyClouds.octaves])
    (by norm_num [FluffyClouds.persistence])).1

/-! ## C2: flow-line velocity magnitude -/

/-- C2: In both flow-line sketches, the velocity produced by mapping
the noise value to the angle `n * 2π * 2` and scaling the unit vector
by `flow_strength` has Euclidean magnitude exactly `flow_strength`
(which is nonnegative in both sketches, being fixed at `2.0`). -/
theorem step_velocity_magnitude (s : IncandesceeentPerlinFlow)
    (t : AnimatedIncandesceeentPerlinFlow) (pn2 : ℝ → ℝ → ℝ)
    (pn3 : ℝ → ℝ → ℝ → ℝ) (x y : ℝ)
    (hs : 0 ≤ s.flow_strength) (ht : 0 ≤ t.flow_strength) :
    Real.sqrt ((s.step_velocity pn2 x y).1 ^ 2 +
        (s.step_velocity pn2 x y).2 ^ 2) = s.flow_strength ∧
    Real.sqrt ((t.step_velocity pn3 x y).1 ^ 2 +
        (t.step_velocity pn3 x y).2 ^ 2) = t.flow_strength := by
  constructor
  · exact sqrt_cos_sin_scale _ _ hs
  · exact sqrt_cos_sin_scale _ _ ht

/-- Witness for C2: the default sketches (flow_strength 2.0), constant
zero noise, at position (5, 7). -/
theorem step_velocity_magnitude_witness :
    Real.sqrt ((({} : IncandesceeentPerlinFlow).step_velocity
        (fun _ _ => 0) 5 7).1 ^ 2 +
      (({} : IncandesceeentPerlinFlow).step_velocity
        (fun _ _ => 0) 5 7).2 ^ 2) =
      ({} : IncandesceeentPerlinFlow).flow_strength :=
  (step_velocity_magnitude {} {} (fun _ _ => 0) (fun _ _ _ => 0) 5 7
    (by norm_num [IncandesceeentPerlinFlow.flow_strength])
    (by norm_num [AnimatedIncandesceeentPerlinFlow.flow_strength])).1

/-! ## C3: collapse law -/

/-- C3: For every `x` and identical octave, persistence and lacunarity
arguments, `fbm_noise1 x` equals `fbm_noise2 x 0`: the 1D fbm field is
the 2D fbm field evaluated at `y = 0`. -/
theorem fbm_noise1_eq_fbm_noise2_y_zero (noise2 : ℝ → ℝ → ℝ) (x : ℝ)
    (octaves : Nat) (persistence lacunarity : ℝ) :
    fbm_noise1 noise2 x octaves persistence lacunarity =
      fbm_noise2 noise2 x 0 octaves persistence lacunarity := by
  unfold fbm_noise1 fbm_noise2
  have h : (fun frequency => noise2 (x * frequency) ((0 : ℝ) * frequency)) =
      fun frequency => noise2 (x * frequency) 0 := by
    funext f
    rw [zero_mul]
  rw [h]

/-! ## C9: the three parse_resolution functions agree -/

/-- C9: The three `parse_resolution` functions of fluffy_clouds.py,
incandescent_perlin_flow.py and animated_incandescent_perlin_flow.py
are extensionally equal: on every input string all three return the
same pair or all three raise `ValueError` (modelled as `none`). -/
theorem parse_resolution_extensionally_equal (s : List Char) :
    fluffy_clouds.parse_resolution s =
        incandescent_perlin_flow.parse_resolution s ∧
      incandescent_perlin_flow.parse_resolution s =
        animated_incandescent_perlin_flow.parse_resolution s :=
  ⟨rfl, rfl⟩

/-! ## C4: far-field invariance of get_flow -/

/-- Summing pairwise over a list all of whose contributions vanish
leaves the accumulator unchanged. -/
theorem foldl_add_pair_zero {α : Type} (g : α → ℝ × ℝ) :
    ∀ (l : List α) (acc : ℝ × ℝ), (∀ a ∈ l, g a = (0, 0)) →
      l.foldl (fun acc a => (acc.1 + (g a).1, acc.2 + (g a).2)) acc = acc := by
  intro l
  induction l with
  | nil => intro acc _; rfl
  | cons a l ih =>
    intro acc h
    rw [List.foldl_cons, h a (List.mem_cons_self a l)]
    simpa using ih acc fun b hb => h b (List.mem_cons_of_mem a hb)

/-- C4: If every obstacle lies at distance at least its influence
radius from the query point, `get_flow` returns exactly
`get_base_flow` there: every obstacle deflection vanishes and the
summed contribution is zero. -/
theorem get_flow_far_field (noise3 : ℝ → ℝ → ℝ → ℝ) (ff : FlowField)
    (x y time : ℝ)
    (h : ∀ ob ∈ ff.obstacles, ob.influence_radius ≤ dist2 x y ob.x ob.y) :
    ff.get_flow noise3 x y time = ff.get_base_flow noise3 x y time := by
  unfold FlowField.get_flow
  have hz : ∀ ob ∈ ff.obstacles,
      obstacleDeflection ff.config ob x y = (0, 0) := by
    intro ob hob
    unfold obstacleDeflection
    rw [if_pos (h ob hob)]
  rw [foldl_add_pair_zero _ ff.obstacles (0, 0) hz]
  simp

/-- Witness for C4: an obstacle at (100, 100) with radius 50 and
influence radius 150 leaves the flow at (500, 500) untouched. -/
theorem get_flow_far_field_witness :
    FlowField.get_flow (fun _ _ _ => 0)
        ⟨{}, [{ x := 100, y := 100, radius := 50, influence_radius := 150 }]⟩
        500 500 0 =
      FlowField.get_base_flow (fun _ _ _ => 0)
        ⟨{}, [{ x := 100, y := 100, radius := 50, influence_radius := 150 }]⟩
        500 500 0 := by
  refine get_flow_far_field _ _ 500 500 0 ?_
  intro ob hob
  simp only [List.mem_singleton] at hob
  subst hob
  show (150 : ℝ) ≤ dist2 500 500 100 100
  unfold dist2
  rw [show ((500 : ℝ) - 100) ^ 2 + ((500 : ℝ) - 100) ^ 2 = 320000 by norm_num]
  rw [show (150 : ℝ) = Real.sqrt (150 ^ 2) by
    rw [Real.sqrt_sq]; norm_num]
  exact Real.sqrt_le_sqrt (by norm_num)

/-! ## C5: density exclusion and baseline -/

/-- Folding `max` of contributions that all equal one over the
starting value one yields one. -/
theorem foldl_max_boost_one {α : Type} (f : α → ℝ) :
    ∀ l : List α, (∀ a ∈ l, f a = 1) →
      l.foldl (fun acc a => max acc (f a)) 1 = 1 := by
  intro l
  induction l with
  | nil => intro _; rfl
  | cons a l ih =>
    intro h
    rw [List.foldl_cons, h a (List.mem_cons_self a l), max_self]
    exact ih fun b hb => h b (List.mem_cons_of_mem a hb)

/-- C5: `get_density_at` returns 0 whenever the point lies within some
obstacle's radius (hard exclusion), and returns the baseline 1
whenever no obstacle influences the point. -/
theorem get_density_at_exclusion_and_baseline (c : PointClusterer)
    (x y : ℝ) :
    ((∃ ob ∈ c.obstacles, dist2 x y ob.x ob.y < ob.radius) →
      c.get_density_at x y = 0) ∧
    ((∀ ob ∈ c.obstacles, ob.radius ≤ dist2 x y ob.x ob.y ∧
        ob.influence_radius ≤ dist2 x y ob.x ob.y) →
      c.get_density_at x y = 1) := by
  constructor
  · intro h
    unfold PointClusterer.get_density_at
    rw [if_pos]
    rw [List.any_eq_true]
    obtain ⟨ob, hob, hd⟩ := h
    exact ⟨ob, hob, by simpa using hd⟩
  · intro h
    unfold PointClusterer.get_density_at
    rw [if_neg]
    · refine foldl_max_boost_one _ c.obstacles fun ob hob => ?_
      unfold obstacleBoost
      rw [if_neg (not_lt.mpr (h ob hob).2)]
    · rw [List.any_eq_true]
      rintro ⟨ob, hob, hd⟩
      exact absurd (by simpa using hd) (not_lt.mpr (h ob hob).1)

/-- Witness for C5: density at the exact center of an obstacle of
radius 50 is 0. -/
theorem get_density_at_exclusion_witness :
    PointClusterer.get_density_at
        ⟨1000, 1000, {}, [{ x := 500, y := 500, radius := 50 }], none⟩
        500 500 = 0 := by
  refine (get_density_at_exclusion_and_baseline _ 500 500).1 ?_
  refine ⟨{ x := 500, y := 500, radius := 50 }, List.mem_singleton_self _, ?_⟩
  show dist2 500 500 500 500 < 50
  unfold dist2
  rw [show ((500 : ℝ) - 500) ^ 2 + ((500 : ℝ) - 500) ^ 2 = 0 by norm_num]
  rw [Real.sqrt_zero]
  norm_num

/-! ## C6: validity predicate -/

/-- C6: `is_valid_point` returns false exactly when the point is out
of bounds, inside some obstacle's radius, or within `min_distance` of
an existing point; it returns true in all other cases. -/
theorem is_valid_point_iff (c : PointClusterer) (x y : ℝ)
    (existing_points : List (ℝ × ℝ)) :
    c.is_valid_point x y existing_points = false ↔
      (x < 0 ∨ x > c.width ∨ y < 0 ∨ y > c.height) ∨
      (∃ ob ∈ c.obstacles, dist2 x y ob.x ob.y < ob.radius) ∨
      (∃ p ∈ existing_points, dist2 x y p.1 p.2 < c.config.min_distance) := by
  unfold PointClusterer.is_valid_point
  split_ifs with h1 h2 h3 <;>
    simp_all [List.any_eq_true]

/-! ## C8: deterministic point generation -/

/-- C8: Two clusterers with identical seed, bounds, configuration and
obstacle list produce identical output from both point generators. -/
theorem point_generation_deterministic (c1 c2 : PointClusterer) (n : Nat)
    (hw : c1.width = c2.width) (hh : c1.height = c2.height)
    (hc : c1.config = c2.config) (ho : c1.obstacles = c2.obstacles)
    (hs : c1.seed = c2.seed) :
    c1.generate_points n = c2.generate_points n ∧
      c1.generate_points_grid_based n = c2.generate_points_grid_based n := by
  obtain ⟨w1, h1, cf1, ob1, s1⟩ := c1
  obtain ⟨w2, h2, cf2, ob2, s2⟩ := c2
  dsimp only at hw hh hc ho hs
  subst hw
  subst hh
  subst hc
  subst ho
  subst hs
  exact ⟨rfl, rfl⟩

/-- Witness for C8: two identical concrete clusterers with seed 42
produce the same grid-based output. -/
theorem point_generation_deterministic_witness :
    PointClusterer.generate_points_grid_based
        ⟨1000, 1000, {}, [], some 42⟩ 50 =
      PointClusterer.generate_points_grid_based
        ⟨1000, 1000, {}, [], some 42⟩ 50 :=
  (point_generation_deterministic ⟨1000, 1000, {}, [], some 42⟩
    ⟨1000, 1000, {}, [], some 42⟩ 50 rfl rfl rfl rfl rfl).2

/-! ## C7: generate_points count bound and obstacle avoidance -/

/-- A point accepted by `is_valid_point` lies at distance at least
`radius` from every obstacle's center. -/
theorem is_valid_point_avoids (c : PointClusterer) (x y : ℝ)
    (pts : List (ℝ × ℝ)) (h : c.is_valid_point x y pts = true) :
    ∀ ob ∈ c.obstacles, ob.radius ≤ dist2 x y ob.x ob.y := by
  intro ob hob
  unfold PointClusterer.is_valid_point at h
  split_ifs at h with h1 h2 h3
  rw [List.any_eq_true] at h2
  push_neg at h2
  have := h2 ob hob
  simpa using this

/-- The rejection-sampling loop never exceeds the requested count. -/
theorem generatePointsAux_length_le (c : PointClusterer) (count : Nat) :
    ∀ (fuel state : Nat) (acc : List (ℝ × ℝ)), acc.length ≤ count →
      (c.generatePointsAux count fuel state acc).length ≤ count := by
  intro fuel
  induction fuel with
  | zero => intro state acc h; exact h
  | succ fuel ih =>
    intro state acc h
    unfold PointClusterer.generatePointsAux
    split_ifs with h1
    · exact h
    · dsimp only
      split_ifs with h2
      · refine ih _ _ ?_
        rw [List.length_cons]
        exact Nat.succ_le_of_lt (Nat.lt_of_le_of_ne h h1)
      · exact ih _ _ h

/-- Every point produced by the rejection-sampling loop, starting from
an accumulator that avoids all obstacles, avoids all obstacles. -/
theorem generatePointsAux_avoids (c : PointClusterer) (count : Nat) :
    ∀ (fuel state : Nat) (acc : List (ℝ × ℝ)),
      (∀ p ∈ acc, ∀ ob ∈ c.obstacles, ob.radius ≤ dist2 p.1 p.2 ob.x ob.y) →
      ∀ p ∈ c.generatePointsAux count fuel state acc,
        ∀ ob ∈ c.obstacles, ob.radius ≤ dist2 p.1 p.2 ob.x ob.y := by
  intro fuel
  induction fuel with
  | zero => intro state acc h; exact h
  | succ fuel ih =>
    intro state acc h
    unfold PointClusterer.generatePointsAux
    split_ifs with h1
    · exact h
    · dsimp only
      split_ifs with h2
      · refine ih _ _ ?_
        intro p hp
        rcases List.mem_cons.mp hp with rfl | hp'
        · exact is_valid_point_avoids c _ _ acc h2.1
        · exact h p hp'
      · exact ih _ _ h

/-- In the covering clusterer no point is ever valid: out-of-bounds
candidates fail the bounds check and in-bounds candidates lie within
the covering obstacle's radius. -/
theorem coveredClusterer_always_invalid (x y : ℝ) (acc : List (ℝ × ℝ)) :
    coveredClusterer.is_valid_point x y acc = false := by
  unfold PointClusterer.is_valid_point
  split_ifs with h1 h2 h3
  · rfl
  · rfl
  · rfl
  · exfalso
    apply h2
    rw [List.any_eq_true]
    refine ⟨{ x := 0, y := 0, radius := 1000000, influence_radius := 1000000 },
      List.mem_singleton_self _, ?_⟩
    push_neg at h1
    obtain ⟨hx0, hxw, hy0, hyh⟩ := h1
    have hw : coveredClusterer.width = 100 := rfl
    have hh : coveredClusterer.height = 100 := rfl
    rw [hw] at hxw
    rw [hh] at hyh
    simp only [decide_eq_true_eq]
    show dist2 x y 0 0 < (1000000 : ℝ)
    unfold dist2
    rw [Real.sqrt_lt' (by norm_num)]
    nlinarith

/-- With every candidate invalid, the rejection-sampling loop returns
its accumulator unchanged. -/
theorem generatePointsAux_covered (count : Nat) (hcount : count ≠ 0) :
    ∀ (fuel state : Nat),
      coveredClusterer.generatePointsAux count fuel state [] = [] := by
  intro fuel
  induction fuel with
  | zero => intro state; rfl
  | succ fuel ih =>
    intro state
    unfold PointClusterer.generatePointsAux
    rw [if_neg (by simpa using Ne.symm hcount)]
    rw [if_neg]
    · exact ih _
    · rintro ⟨hvalid, -⟩
      rw [coveredClusterer_always_invalid] at hvalid
      exact absurd hvalid (by simp)

/-- Counterexample to C7 as stated: for the covering clusterer and the
requested count 1 (which is at least 1), `generate_points` returns no
points at all, so `0 < length` fails. -/
theorem generate_points_count_counterexample :
    (coveredClusterer.generate_points 1).length = 0 := by
  unfold PointClusterer.generate_points
  rw [generatePointsAux_covered 1 one_ne_zero]
  rfl

/-- C7 (amended): `generate_points` returns at most `count` points —
possibly none when the obstacles exclude every candidate — and every
returned point's distance to every obstacle's center is at least that
obstacle's radius. -/
theorem generate_points_le_and_avoids (c : PointClusterer) (count : Nat) :
    (c.generate_points count).length ≤ count ∧
      ∀ p ∈ c.generate_points count, ∀ ob ∈ c.obstacles,
        ob.radius ≤ dist2 p.1 p.2 ob.x ob.y := by
  constructor
  · unfold PointClusterer.generate_points
    rw [List.length_reverse]
    exact generatePointsAux_length_le c count _ _ [] (by simp)
  · intro p hp
    unfold PointClusterer.generate_points at hp
    rw [List.mem_reverse] at hp
    exact generatePointsAux_avoids c count _ _ [] (by simp) p hp

/-- Witness for the amended C7 at a concrete clusterer and count. -/
theorem generate_points_le_and_avoids_witness :
    (PointClusterer.generate_points ⟨1000, 1000, {}, [], some 42⟩ 5).length
      ≤ 5 :=
  (generate_points_le_and_avoids ⟨1000, 1000, {}, [], some 42⟩ 5).1

/-! ## C10 helper lemmas: the decimal rendering round-trips -/

/-- Every decimal-digit character is a digit, is fixed by lowercasing,
and is none of the separator, underscore, sign or whitespace
characters. -/
theorem digitChar_spec (c : Char)
    (h : ∃ d, d < 10 ∧ c = Char.ofNat (48 + d)) :
    c.isDigit = true ∧ asciiLower c = c ∧ c ≠ 'x' ∧ c ≠ '_' ∧ c ≠ '+' ∧
      c ≠ '-' ∧ isPySpace c = false := by
  obtain ⟨d, hd, rfl⟩ := h
  interval_cases d <;> decide

/-- Every character of a decimal rendering is a digit character. -/
theorem natRepr_chars (n : Nat) :
    ∀ c ∈ natRepr n, ∃ d, d < 10 ∧ c = Char.ofNat (48 + d) := by
  intro c hc
  unfold natRepr at hc
  split_ifs at hc with h
  · have hc0 : c = '0' := by simpa using hc
    subst hc0
    exact ⟨0, by norm_num, by decide⟩
  · rw [List.mem_map] at hc
    obtain ⟨d, hd, rfl⟩ := hc
    rw [List.mem_reverse] at hd
    exact ⟨d, Nat.digits_lt_base (by norm_num) hd, rfl⟩

/-- The decimal rendering of a natural number is nonempty. -/
theorem natRepr_ne_nil (n : Nat) : natRepr n ≠ [] := by
  unfold natRepr
  split_ifs with h
  · simp
  · simp [Nat.digits_ne_nil_iff_ne_zero.mpr h]

/-- Dropping a prefix satisfying a predicate no character satisfies is
the identity. -/
theorem dropWhile_eq_self_of_none (p : Char → Bool) (l : List Char)
    (h : ∀ c ∈ l, p c = false) : l.dropWhile p = l := by
  cases l with
  | nil => rfl
  | cons c cs =>
    rw [List.dropWhile_cons, h c (List.mem_cons_self c cs)]
    simp

/-- Stripping whitespace from a whitespace-free string is the
identity. -/
theorem pyStrip_eq_self (l : List Char) (h : ∀ c ∈ l, isPySpace c = false) :
    pyStrip l = l := by
  unfold pyStrip
  rw [dropWhile_eq_self_of_none _ _ h,
    dropWhile_eq_self_of_none _ _ fun c hc => h c (List.mem_reverse.mp hc)]
  exact List.reverse_reverse l

/-- On a run of digit characters the underscore-aware digit parser is
the plain base-10 accumulator. -/
theorem parseDigitsCore_all_digits :
    ∀ (l : List Char) (acc : Nat),
      (∀ c ∈ l, ∃ d, d < 10 ∧ c = Char.ofNat (48 + d)) →
      parseDigitsCore l acc =
        some (l.foldl (fun a c => a * 10 + charToDigit c) acc) := by
  intro l
  induction l with
  | nil => intro acc _; rfl
  | cons c cs ih =>
    intro acc h
    have hc := digitChar_spec c (h c (List.mem_cons_self c cs))
    unfold parseDigitsCore
    rw [if_neg hc.2.2.2.1, if_pos hc.1, List.foldl_cons]
    exact ih _ fun x hx => h x (List.mem_cons_of_mem c hx)

/-- Folding the base-10 accumulator over the reversed digit list
recovers the value of the digits. -/
theorem foldl_reverse_ofDigits :
    ∀ L : List Nat,
      L.reverse.foldl (fun a d => a * 10 + d) 0 = Nat.ofDigits 10 L := by
  intro L
  induction L with
  | nil => rfl
  | cons d L ih =>
    rw [List.reverse_cons, List.foldl_append, ih, Nat.ofDigits_cons]
    simp only [List.foldl_cons, List.foldl_nil]
    omega

/-- The digit parser inverts the decimal rendering. -/
theorem parseDigits_natRepr (n : Nat) : parseDigits (natRepr n) = some n := by
  by_cases h : n = 0
  · subst h
    decide
  · obtain ⟨c, cs, hl⟩ := List.exists_cons_of_ne_nil (natRepr_ne_nil n)
    have hchars := natRepr_chars n
    rw [hl] at hchars
    have hc := digitChar_spec c (hchars c (List.mem_cons_self c cs))
    rw [hl]
    unfold parseDigits
    show (if c.isDigit = true then parseDigitsCore cs (charToDigit c)
      else none) = some n
    rw [if_pos hc.1,
      parseDigitsCore_all_digits cs _
        fun x hx => hchars x (List.mem_cons_of_mem c hx)]
    have hfold : cs.foldl (fun a x => a * 10 + charToDigit x) (charToDigit c) =
        (c :: cs).foldl (fun a x => a * 10 + charToDigit x) 0 := by
      rw [List.foldl_cons]
      norm_num
    rw [hfold, ← hl]
    unfold natRepr
    rw [if_neg h, List.foldl_map]
    rw [List.foldl_ext _ (fun a d => a * 10 + d) 0 ?_]
    · rw [foldl_reverse_ofDigits, Nat.ofDigits_digits]
    · intro a d hd
      have hd10 : d < 10 :=
        Nat.digits_lt_base (by norm_num) (List.mem_reverse.mp hd)
      congr 1
      interval_cases d <;> decide

/-- Python's `int()` inverts the decimal rendering of a natural
number. -/
theorem pyInt_natRepr (n : Nat) : pyInt (natRepr n) = some (n : Int) := by
  obtain ⟨c, cs, hl⟩ := List.exists_cons_of_ne_nil (natRepr_ne_nil n)
  have hchars := natRepr_chars n
  have hstrip : pyStrip (natRepr n) = natRepr n :=
    pyStrip_eq_self _ fun x hx => (digitChar_spec x (hchars x hx)).2.2.2.2.2.2
  have hcmem : c ∈ natRepr n := by
    rw [hl]
    exact List.mem_cons_self c cs
  have hc := digitChar_spec c (hchars c hcmem)
  unfold pyInt
  rw [hstrip, hl]
  show (if c = '+' then (parseDigits cs).map fun m => (m : Int)
    else if c = '-' then (parseDigits cs).map fun m => -(m : Int)
    else (parseDigits (c :: cs)).map fun m => (m : Int)) = some (n : Int)
  rw [if_neg hc.2.2.2.2.1, if_neg hc.2.2.2.2.2.1, ← hl, parseDigits_natRepr]
  rfl

/-- Splitting a separator-free string yields the string itself. -/
theorem pySplitChar_of_not_mem (sep : Char) :
    ∀ l : List Char, sep ∉ l → pySplitChar sep l = [l] := by
  intro l
  induction l with
  | nil => intro _; rfl
  | cons c cs ih =>
    intro h
    have hc : ¬c = sep := fun hh => h (List.mem_cons.mpr (Or.inl hh.symm))
    have hcs : sep ∉ cs := fun hh => h (List.mem_cons_of_mem c hh)
    unfold pySplitChar
    dsimp only
    rw [ih hcs, if_neg hc]

/-- Splitting on the single separator between two separator-free
strings yields the two pieces. -/
theorem pySplitChar_append (l2 : List Char) (h2 : 'x' ∉ l2) :
    ∀ l1 : List Char, 'x' ∉ l1 →
      pySplitChar 'x' (l1 ++ 'x' :: l2) = [l1, l2] := by
  intro l1
  induction l1 with
  | nil =>
    intro _
    show pySplitChar 'x' ('x' :: l2) = [[], l2]
    unfold pySplitChar
    dsimp only
    rw [if_pos rfl, pySplitChar_of_not_mem 'x' l2 h2]
  | cons c cs ih =>
    intro h1
    have hc : ¬c = 'x' := fun hh => h1 (List.mem_cons.mpr (Or.inl hh.symm))
    have hcs : 'x' ∉ cs := fun hh => h1 (List.mem_cons_of_mem c hh)
    show pySplitChar 'x' (c :: (cs ++ 'x' :: l2)) = [c :: cs, l2]
    unfold pySplitChar
    dsimp only
    rw [ih hcs, if_neg hc]

/-- Lowercasing a string it fixes pointwise is the identity. -/
theorem map_asciiLower_self :
    ∀ l : List Char, (∀ c ∈ l, asciiLower c = c) → l.map asciiLower = l := by
  intro l
  induction l with
  | nil => intro _; rfl
  | cons c cs ih =>
    intro h
    rw [List.map_cons, h c (List.mem_cons_self c cs),
      ih fun x hx => h x (List.mem_cons_of_mem c hx)]

/-- A string of digits and `x` matches no shorthand key: every key
contains a letter that is neither a digit nor `x`. -/
theorem lookup_shorthand_none (l : List Char)
    (h : ∀ c ∈ l, c.isDigit = true ∨ c = 'x') :
    List.lookup l animated_incandescent_perlin_flow.shorthand_map = none := by
  have key : ∀ k : List Char, ∀ c ∈ k, c.isDigit = false → c ≠ 'x' → l ≠ k := by
    intro k c hck hd hx hlk
    subst hlk
    rcases h c hck with hc | hc
    · rw [hd] at hc
      exact Bool.false_ne_true hc
    · exact hx hc
  have e1 : (l == ['4', 'k']) = false :=
    beq_eq_false_iff_ne.mpr (key _ 'k' (by decide) (by decide) (by decide))
  have e2 : (l == ['1', '4', '4', '0', 'p']) = false :=
    beq_eq_false_iff_ne.mpr (key _ 'p' (by decide) (by decide) (by decide))
  have e3 : (l == ['1', '0', '8', '0', 'p']) = false :=
    beq_eq_false_iff_ne.mpr (key _ 'p' (by decide) (by decide) (by decide))
  have e4 : (l == ['7', '2', '0', 'p']) = false :=
    beq_eq_false_iff_ne.mpr (key _ 'p' (by decide) (by decide) (by decide))
  have e5 : (l == ['1', '4', '4', '0', 'p', '_', 'p', 'o', 'r', 't', 'r',
      'a', 'i', 't']) = false :=
    beq_eq_false_iff_ne.mpr (key _ 'p' (by decide) (by decide) (by decide))
  have e6 : (l == ['q', 'h', 'd', '_', 'p', 'o', 'r', 't', 'r', 'a', 'i',
      't']) = false :=
    beq_eq_false_iff_ne.mpr (key _ 'q' (by decide) (by decide) (by decide))
  simp [animated_incandescent_perlin_flow.shorthand_map, List.lookup,
    e1, e2, e3, e4, e5, e6]

/-- A string with an `x` in the middle contains `x`. -/
theorem contains_x_append (l1 l2 : List Char) :
    (l1 ++ 'x' :: l2).contains 'x' = true := by
  simp [List.contains]

/-! ## C10: resolution shorthand round-trip -/

/-- C10: For all positive integer widths and heights,
`parse_resolution (get_resolution_shorthand width height)` returns
exactly `(width, height)`, whether the pair is a named shorthand
resolution or falls through to the generic `WIDTHxHEIGHT` encoding. -/
theorem parse_resolution_roundtrip (width height : Int)
    (hw : 0 < width) (hh : 0 < height) :
    animated_incandescent_perlin_flow.parse_resolution
        (animated_incandescent_perlin_flow.get_resolution_shorthand
          width height) = some (width, height) := by
  unfold animated_incandescent_perlin_flow.get_resolution_shorthand
  split_ifs with h1 h2 h3 h4 h5
  · obtain ⟨rfl, rfl⟩ := h1
    rfl
  · obtain ⟨rfl, rfl⟩ := h2
    rfl
  · obtain ⟨rfl, rfl⟩ := h3
    rfl
  · obtain ⟨rfl, rfl⟩ := h4
    rfl
  · obtain ⟨rfl, rfl⟩ := h5
    rfl
  · have hwr : intRepr width = natRepr width.toNat := by
      unfold intRepr
      rw [if_neg (not_lt.mpr hw.le)]
    have hhr : intRepr height = natRepr height.toNat := by
      unfold intRepr
      rw [if_neg (not_lt.mpr hh.le)]
    rw [hwr, hhr]
    have hca := natRepr_chars width.toNat
    have hcb := natRepr_chars height.toNat
    have hxa : 'x' ∉ natRepr width.toNat := fun hx =>
      (digitChar_spec _ (hca _ hx)).2.2.1 rfl
    have hxb : 'x' ∉ natRepr height.toNat := fun hx =>
      (digitChar_spec _ (hcb _ hx)).2.2.1 rfl
    have hlower : ∀ c ∈ natRepr width.toNat ++ 'x' :: natRepr height.toNat,
        asciiLower c = c := by
      intro c hc
      rcases List.mem_append.mp hc with hc | hc
      · exact (digitChar_spec _ (hca _ hc)).2.1
      · rcases List.mem_cons.mp hc with rfl | hc
        · decide
        · exact (digitChar_spec _ (hcb _ hc)).2.1
    have hdigx : ∀ c ∈ natRepr width.toNat ++ 'x' :: natRepr height.toNat,
        c.isDigit = true ∨ c = 'x' := by
      intro c hc
      rcases List.mem_append.mp hc with hc | hc
      · exact Or.inl (digitChar_spec _ (hca _ hc)).1
      · rcases List.mem_cons.mp hc with rfl | hc
        · exact Or.inr rfl
        · exact Or.inl (digitChar_spec _ (hcb _ hc)).1
    unfold animated_incandescent_perlin_flow.parse_resolution
    dsimp only
    rw [map_asciiLower_self _ hlower, lookup_shorthand_none _ hdigx]
    dsimp only
    rw [contains_x_append]
    rw [if_pos rfl]
    rw [pySplitChar_append (natRepr height.toNat) hxb (natRepr width.toNat) hxa]
    dsimp only
    rw [pyInt_natRepr, pyInt_natRepr]
    dsimp only
    rw [Int.toNat_of_nonneg hw.le, Int.toNat_of_nonneg hh.le,
      if_pos ⟨hw, hh⟩]

/-- Witness for C10 at the concrete pair (123, 456), which exercises
the generic `WIDTHxHEIGHT` path. -/
theorem parse_resolution_roundtrip_witness :
    animated_incandescent_perlin_flow.parse_resolution
        (animated_incandescent_perlin_flow.get_resolution_shorthand
          123 456) = some (123, 456) :=
  parse_resolution_roundtrip 123 456 (by norm_num) (by norm_num)

end GenerativeArt
